import Mathlib

/-!
# Verification of the dreambank curation and distribution core

Shallow embedding of `src/dreambank/curation.py` and `src/dreambank/fetchers.py`:
the HTML-dream-block extraction of `read_source_dreams_as_df`, the registry line
writers, the overwrite-protected artifact writers, the TSV round trip of
`write_dreams_df_to_csv` / `read_dreams`, and the registry-driven content
fetch protocol.
-/

namespace Dreambank

/-! ## Python regex primitives

`read_source_dreams_as_df` drives three regular expressions over each
dream-block text (`curation.py` lines 232-241).  We embed their semantics on
`List Char`.  Python's `\s` on these pages is the six ASCII whitespace
characters; `\S` is its complement. -/

/-- Python `\s` (ASCII range): space, tab, newline, carriage return,
vertical tab, form feed. -/
def isPySpace (c : Char) : Bool :=
  c = ' ' || c = '\t' || c = '\n' || c = '\r' || c = '\x0b' || c = '\x0c'

/-- The optional date group `(\(\S*\)) ` of the leading regex, tried at the
text position right after `#<index> `.  With greedy matching and backtracking,
`\(\S*\)` followed by a literal space succeeds exactly when the text starts
with `(`, the maximal `\S`-run starting there ends with `)`, and the character
after that run is a space; the captured group 3 is the whole run.
Returns the captured run, or `none` when the optional group does not match. -/
def dateRun (s : List Char) : Option (List Char) :=
  match s with
  | '(' :: _ =>
    let run := s.takeWhile (fun c => !isPySpace c)
    if run.getLast? = some ')' && (s.drop run.length).head? = some ' ' then
      some run
    else
      none
  | _ => none

/-- `re.match(r"^#(\S+) ((\(\S*\)) )?", span_text)` (curation.py line 232):
returns `(group 1, group 3)` on success.  The greedy `\S+` must be the maximal
non-whitespace run after `#`, and the literal space after it cannot be
recovered by backtracking (shortening `\S+` still leaves a non-space
character next), so the match succeeds exactly when the text is
`#<run> <rest>` with `run` nonempty. -/
def reMatchNumDate (s : List Char) : Option (List Char × Option (List Char)) :=
  match s with
  | '#' :: rest =>
    let g1 := rest.takeWhile (fun c => !isPySpace c)
    if g1 ≠ [] ∧ (rest.drop g1.length).head? = some ' ' then
      let rest2 := (rest.drop g1.length).tail
      some (g1, dateRun rest2)
    else
      none
  | _ => none

/-- `re.sub(r"^#([0-9]+) ((\(\S*\)) )?", "", span_text)` (curation.py
line 237).  Anchored at the start, so at most one replacement.  Note the
index group here is `[0-9]+`, narrower than the `\S+` used by the match on
line 232: an index with a letter suffix (e.g. `111a`) is matched by
`reMatchNumDate` but NOT stripped here. -/
def stripNumDate (s : List Char) : List Char :=
  match s with
  | '#' :: rest =>
    let digits := rest.takeWhile Char.isDigit
    if digits ≠ [] ∧ (rest.drop digits.length).head? = some ' ' then
      let rest2 := (rest.drop digits.length).tail
      match dateRun rest2 with
      | some run => rest2.drop (run.length + 1)
      | none => rest2
    else
      s
  | _ => s

/-- Helper for the end-anchored word-count pattern
`[ \n]?\([0-9]+ words\)$`: try to strip one match ending exactly at the end
of `t`.  Works from the reversed list: `)`, then `sdrow ` (the reverse of
` words`), then a nonempty digit run, then `(`, then an optional single
preceding space or newline (consumed when present, as the leftmost match
starts there). -/
def stripWcEnd (t : List Char) : Option (List Char) :=
  match t.reverse with
  | ')' :: r1 =>
    if r1.take 6 = "sdrow ".toList then
      let r2 := r1.drop 6
      let ds := r2.takeWhile Char.isDigit
      if ds ≠ [] then
        match r2.drop ds.length with
        | '(' :: r3 =>
          match r3 with
          | c :: r4 => if c = ' ' || c = '\n' then some r4.reverse else some r3.reverse
          | [] => some []
        | _ => none
      else none
    else none
  | _ => none

/-- `re.sub(r"[ \n]?\([0-9]+ words\)$", "", t)` (curation.py line 241), and
the match count of `re.findall` with the same pattern (line 239).  Without
`re.MULTILINE`, `$` matches at the end of the string or just before one final
newline; two non-overlapping matches would have to end at both positions,
which overlap, so the findall count is 0 or 1.  `some u` means exactly one
match was found and `u` is the text with it removed; `none` means zero
matches. -/
def stripWc (t : List Char) : Option (List Char) :=
  match stripWcEnd t with
  | some u => some u
  | none =>
    if t.getLast? = some '\n' then
      (stripWcEnd t.dropLast).map (fun u => u ++ ['\n'])
    else
      none

/-! ## Dream records and the extraction loop -/

/-- One parsed dream report (the dict built on curation.py line 243). -/
structure DreamRec where
  n : String
  date : Option String
  dream : String
deriving Repr, DecidableEq

deriving instance DecidableEq for Except

/-- The failure modes of `read_source_dreams_as_df`.  `nameError` is Python's
`NameError`: the assert message on line 233 interpolates `dream_n`, which is
first assigned on line 234, so when the very first block fails the match the
message itself cannot be evaluated.  `noMatch dsid n` is that `AssertionError`
when `dream_n` is bound (to the PREVIOUS block's index `n`).  -/
inductive ParseErr where
  | nameError : ParseErr
  | noMatch : String → String → ParseErr
  | wcCount : String → String → Nat → ParseErr
  | dupN : ParseErr
  | unpack : ParseErr
  | countMismatch : Nat → Nat → Nat → ParseErr
deriving Repr, DecidableEq

/-- Python `dream_n == record` on line 242: `dream_n` is a `str` and every
element of `data` is a `dict`, and in Python a `str` never equals a `dict`,
so this comparison is `False` for every element. -/
def pyStrEqDict (_s : String) (_r : DreamRec) : Bool := false

/-- Python `dream_n in data` (the membership test inside the line 242
assert): `any` of elementwise equality over the list of dicts. -/
def pyStrInData (s : String) (data : List DreamRec) : Bool :=
  data.any (pyStrEqDict s)

/-- The failure raised by the line 233 assert when the leading match is
`None`: evaluating the f-string message reads the local `dream_n`, so the
result is `NameError` when `dream_n` is unbound and the `AssertionError`
carrying the stale previous index otherwise. -/
def noMatchErr (dsid : String) (envN : Option String) : ParseErr :=
  match envN with
  | none => ParseErr.nameError
  | some prev => ParseErr.noMatch dsid prev

/-- The per-block loop body of `read_source_dreams_as_df` (curation.py lines
229-243), over the flattened span texts.  `envN` is the Python binding of the
local variable `dream_n` (`none` = not yet assigned); `data` is the
accumulated record list (reversed; document order is restored at the end). -/
def parseLoopGo (dsid : String) (blocks : List (List Char)) (envN : Option String)
    (data : List DreamRec) : Except ParseErr (List DreamRec) :=
  match blocks with
  | [] => .ok data.reverse
  | t :: ts =>
    match reMatchNumDate t with
    | none => .error (noMatchErr dsid envN)
    | some (g1, g3) =>
      let n := String.mk g1
      match stripWc (stripNumDate t) with
      | none => .error (ParseErr.wcCount dsid n 0)
      | some dt =>
        if pyStrInData n data then
          .error ParseErr.dupN
        else
          parseLoopGo dsid ts (some n) (⟨n, g3.map String.mk, String.mk dt⟩ :: data)

/-- The extraction loop of `read_source_dreams_as_df` over the selected span
texts, with `dream_n` initially unbound and `data` initially empty. -/
def parseLoop (dsid : String) (blocks : List (List Char)) : Except ParseErr (List DreamRec) :=
  parseLoopGo dsid blocks none []

/-! ## The page count cross-check -/

/-- Worker for `runSplit`: `acc` is the current (reversed) run of characters
satisfying `p` not yet emitted. -/
def runSplitAux (p : Char → Bool) : List Char → List Char → List (List Char)
  | [], acc => if acc = [] then [] else [acc.reverse]
  | c :: cs, acc =>
    if p c then
      runSplitAux p cs (c :: acc)
    else if acc = [] then
      runSplitAux p cs []
    else
      acc.reverse :: runSplitAux p cs []

/-- `re.findall` of a maximal-run pattern (`[0-9]+` on curation.py line 249,
and whitespace-separated tokens of a registry line): the list of maximal runs
of characters satisfying `p`. -/
def runSplit (p : Char → Bool) (l : List Char) : List (List Char) :=
  runSplitAux p l []

/-- `re.findall(r"[0-9]+", s)` (curation.py line 249). -/
def findIntTokens (s : List Char) : List (List Char) :=
  runSplit Char.isDigit s

/-- Python `int` on a digit string (leading zeros allowed). -/
def toNatDigits (l : List Char) : Nat :=
  l.foldl (fun a c => a * 10 + (c.toNat - 48)) 0

/-- `read_source_dreams_as_df` (curation.py lines 229-253) over its inputs:
the flattened texts of the selected (non-comment) spans, in document order,
and the text of the node following the first `h4` heading (the page's
"N dreams, M displayed" statement).  After the extraction loop, the statement
must contain exactly two integers (unpacking anything else is a fatal
`ValueError`, modelled as `unpack`), and declared total, declared displayed
and extracted count must all be equal (line 251); the records are returned in
document order (the DataFrame keeps insertion order; `sort_index` on the
0..k-1 row index is the identity). -/
def read_source_dreams (dsid : String) (blocks : List (List Char)) (stmt : List Char) :
    Except ParseErr (List DreamRec) :=
  match parseLoop dsid blocks with
  | .error e => .error e
  | .ok data =>
    match findIntTokens stmt with
    | [a, b] =>
      if toNatDigits a = toNatDigits b ∧ toNatDigits b = data.length then
        .ok data
      else
        .error (ParseErr.countMismatch (toNatDigits a) (toNatDigits b) data.length)
    | _ => .error ParseErr.unpack

end Dreambank

namespace Dreambank

/-! ## Claims C1-C4, C10: the dream-block extraction -/

/-- C1 (counterexample): for the block text
`#12 (1987-03-02) I was flying. (4 words)` the extraction does NOT produce a
record with `date = "1987-03-02"`: `dream_date` is `match_.group(3)`, the
group `(\(\S*\))` whose match includes the surrounding parentheses, so the
stored date is `"(1987-03-02)"`. -/
theorem c1_counterexample :
    parseLoop "x" ["#12 (1987-03-02) I was flying. (4 words)".toList] ≠
      Except.ok [⟨"12", some "1987-03-02", "I was flying."⟩] ∧
    parseLoop "x" ["#12 (1987-03-02) I was flying. (4 words)".toList] =
      Except.ok [⟨"12", some "(1987-03-02)", "I was flying."⟩] :=
  ⟨by decide, by decide⟩

/-- C1 (amended): for the block text
`#12 (1987-03-02) I was flying. (4 words)` the extraction produces a record
with `n = "12"`, `date = "(1987-03-02)"` (the parenthesized date token,
parentheses included), and `dream = "I was flying."` (leading index/date
token and trailing word-count token removed). -/
theorem c1_block_extraction :
    parseLoop "x" ["#12 (1987-03-02) I was flying. (4 words)".toList] =
      Except.ok [⟨"12", some "(1987-03-02)", "I was flying."⟩] := by
  decide

/-- C2 (code bug): for a block whose index carries a letter suffix
(`#111a ...`), the leading-token match (`#(\S+) `) succeeds, but the strip
regex uses `#([0-9]+) ` instead, so `re.sub` removes nothing and the returned
dream text still begins with the `#111a` token and the date. -/
theorem c2_letter_index_not_stripped :
    stripNumDate "#111a (1986-01-01) I was flying. (4 words)".toList =
      "#111a (1986-01-01) I was flying. (4 words)".toList ∧
    parseLoop "alta" ["#111a (1986-01-01) I was flying. (4 words)".toList] =
      Except.ok [⟨"111a", some "(1986-01-01)", "#111a (1986-01-01) I was flying."⟩] :=
  ⟨by decide, by decide⟩

/-- C3 (code bug): two blocks both tagged `#5` in the same page are both
returned with no duplicate-index error: the assert on line 242 tests
`dream_n not in data` where `data` is a list of dicts, and a `str` never
equals a `dict`, so the membership test is always false and the assert always
passes. -/
theorem c3_duplicate_not_rejected :
    read_source_dreams "x"
        ["#5 a b. (2 words)".toList, "#5 c d. (2 words)".toList]
        "2 of 2 dreams".toList =
      Except.ok [⟨"5", none, "a b."⟩, ⟨"5", none, "c d."⟩] := by
  decide

/-- C4: given that every selected block extracts successfully and the page's
summary statement contains exactly two integers (declared total and declared
displayed), the parser returns the extracted record sequence (in document
order) if and only if declared total, declared displayed and the number of
extracted records are all equal; any inequality is a fatal error, never a
partial result. -/
theorem c4_count_crosscheck (dsid : String) (blocks : List (List Char))
    (stmt : List Char) (recs : List DreamRec) (a b : List Char)
    (hb : parseLoop dsid blocks = Except.ok recs)
    (hs : findIntTokens stmt = [a, b]) :
    read_source_dreams dsid blocks stmt = Except.ok recs ↔
      (toNatDigits a = toNatDigits b ∧ toNatDigits b = recs.length) := by
  unfold read_source_dreams
  rw [hb, hs]
  by_cases h : toNatDigits a = toNatDigits b ∧ toNatDigits b = recs.length
  · simp [h]
  · simp [h]

/-- C4 witness: a page with one well-formed block and statement `1 of 1`
parses to exactly that one record. -/
theorem c4_count_crosscheck_witness :
    read_source_dreams "x" ["#1 a. (1 words)".toList] "1 of 1".toList =
      Except.ok [⟨"1", none, "a."⟩] :=
  (c4_count_crosscheck "x" ["#1 a. (1 words)".toList] "1 of 1".toList
    [⟨"1", none, "a."⟩] "1".toList "1".toList (by decide) (by decide)).mpr
    (by decide)

/-- C10: when the very first selected block fails the leading `#<index>`
match, the failure is Python's `NameError` (the assert message on line 233
reads `dream_n`, assigned only on line 234, so it is unbound on the first
iteration), not the documented `AssertionError` naming the dataset and
dream. -/
theorem c10_first_block_unbound (dsid : String) (t : List Char)
    (ts : List (List Char)) (h : reMatchNumDate t = none) :
    parseLoop dsid (t :: ts) = Except.error ParseErr.nameError := by
  show parseLoopGo dsid (t :: ts) none [] = Except.error ParseErr.nameError
  unfold parseLoopGo
  rw [h]
  rfl

/-- C10 witness: a first block with no `#` token aborts the parse with the
unbound-variable error. -/
theorem c10_first_block_unbound_witness :
    parseLoop "x" ["hello".toList] = Except.error ParseErr.nameError :=
  c10_first_block_unbound "x" "hello".toList [] (by decide)

end Dreambank

namespace Dreambank

/-! ## Claim C5: registry line format

`write_source_registry` writes one line per file as
`f"{fn} sha256:{file_hash} {url}\n"` (curation.py line 147);
`write_curated_registry` writes `f"{fname} {hash_alg}:{known_hash}\n"`
(curation.py line 175) — with no source column. -/

/-- The whitespace-separated tokens of a line. -/
def wsTokens (s : List Char) : List (List Char) :=
  runSplit (fun c => !isPySpace c) s

/-- The line written per fetched file by `write_source_registry`
(curation.py line 147). -/
def sourceRegistryLine (fn fileHash url : String) : List Char :=
  fn.toList ++ ' ' :: "sha256:".toList ++ fileHash.toList ++ ' ' :: url.toList ++ ['\n']

/-- The line written per curated file by `write_curated_registry`
(curation.py lines 173-175). -/
def curatedRegistryLine (fname hashAlg knownHash : String) : List Char :=
  fname.toList ++ ' ' :: hashAlg.toList ++ ':' :: knownHash.toList ++ ['\n']

theorem runSplitAux_run (p : Char → Bool) (a : List Char) :
    ∀ (l acc : List Char), (∀ c ∈ a, p c = true) →
      runSplitAux p (a ++ l) acc = runSplitAux p l (a.reverse ++ acc) := by
  induction a with
  | nil => intro l acc _; simp
  | cons c a' ih =>
    intro l acc ha
    have hc : p c = true := ha c (List.mem_cons_self c a')
    have ha' : ∀ x ∈ a', p x = true := fun x hx => ha x (List.mem_cons_of_mem c hx)
    simp only [List.cons_append, runSplitAux, hc, if_true, List.append_eq]
    rw [ih _ _ ha']
    simp

theorem runSplitAux_sep (p : Char → Bool) (sep : Char) (rest acc : List Char)
    (hsep : p sep = false) (hacc : acc ≠ []) :
    runSplitAux p (sep :: rest) acc = acc.reverse :: runSplitAux p rest [] := by
  simp [runSplitAux, hsep, hacc]

/-- C5 (counterexample): the line `write_curated_registry` writes for
`alta.tsv` splits into two whitespace-separated tokens, not three: there is
no source column. -/
theorem c5_counterexample :
    (wsTokens (curatedRegistryLine "alta.tsv" "sha256" "0abc")).length = 2 ∧
    (2 : Nat) ≠ 3 :=
  ⟨by decide, by decide⟩

theorem reverse_append_nil_ne {a : List Char} (ha : a ≠ []) :
    a.reverse ++ ([] : List Char) ≠ [] := by
  simp [List.reverse_eq_nil_iff, ha]

/-- A line of three nonempty whitespace-free tokens separated by single
spaces and ended by a newline splits into exactly those three tokens. -/
theorem wsTokens_three (t1 t2 t3 : List Char)
    (h1 : t1 ≠ []) (h2 : t2 ≠ []) (h3 : t3 ≠ [])
    (p1 : ∀ c ∈ t1, isPySpace c = false) (p2 : ∀ c ∈ t2, isPySpace c = false)
    (p3 : ∀ c ∈ t3, isPySpace c = false) :
    wsTokens (t1 ++ ' ' :: (t2 ++ ' ' :: (t3 ++ ['\n']))) = [t1, t2, t3] := by
  have hp : ∀ (a : List Char), (∀ c ∈ a, isPySpace c = false) →
      ∀ c ∈ a, (!isPySpace c) = true := by
    intro a ha c hc; simp [ha c hc]
  show runSplitAux _ _ [] = _
  rw [runSplitAux_run _ _ _ _ (hp _ p1),
      runSplitAux_sep _ _ _ _ (by decide) (reverse_append_nil_ne h1),
      runSplitAux_run _ _ _ _ (hp _ p2),
      runSplitAux_sep _ _ _ _ (by decide) (reverse_append_nil_ne h2),
      runSplitAux_run _ _ _ _ (hp _ p3),
      runSplitAux_sep _ _ _ _ (by decide) (reverse_append_nil_ne h3)]
  simp [runSplitAux]

/-- A line of two nonempty whitespace-free tokens separated by a single
space and ended by a newline splits into exactly those two tokens. -/
theorem wsTokens_two (t1 t2 : List Char)
    (h1 : t1 ≠ []) (h2 : t2 ≠ [])
    (p1 : ∀ c ∈ t1, isPySpace c = false) (p2 : ∀ c ∈ t2, isPySpace c = false) :
    wsTokens (t1 ++ ' ' :: (t2 ++ ['\n'])) = [t1, t2] := by
  have hp : ∀ (a : List Char), (∀ c ∈ a, isPySpace c = false) →
      ∀ c ∈ a, (!isPySpace c) = true := by
    intro a ha c hc; simp [ha c hc]
  show runSplitAux _ _ [] = _
  rw [runSplitAux_run _ _ _ _ (hp _ p1),
      runSplitAux_sep _ _ _ _ (by decide) (reverse_append_nil_ne h1),
      runSplitAux_run _ _ _ _ (hp _ p2),
      runSplitAux_sep _ _ _ _ (by decide) (reverse_append_nil_ne h2)]
  simp [runSplitAux]

/-- C5 (amended): every `write_source_registry` line consists of exactly
three whitespace-separated tokens — filename, `sha256:<hexdigest>`, source
URL — while every `write_curated_registry` line consists of exactly two —
filename and `<algorithm>:<hexdigest>` — the source being implicit (resolved
from a version and base-URL template).  Stated for whitespace-free, nonempty
field values, which is what the writers receive. -/
theorem c5_registry_line_tokens (fn fh url fname alg kh : String)
    (hfn : fn.toList ≠ [] ∧ ∀ c ∈ fn.toList, isPySpace c = false)
    (hfh : ∀ c ∈ fh.toList, isPySpace c = false)
    (hurl : url.toList ≠ [] ∧ ∀ c ∈ url.toList, isPySpace c = false)
    (hfname : fname.toList ≠ [] ∧ ∀ c ∈ fname.toList, isPySpace c = false)
    (halg : alg.toList ≠ [] ∧ ∀ c ∈ alg.toList, isPySpace c = false)
    (hkh : ∀ c ∈ kh.toList, isPySpace c = false) :
    wsTokens (sourceRegistryLine fn fh url) =
      [fn.toList, "sha256:".toList ++ fh.toList, url.toList] ∧
    wsTokens (curatedRegistryLine fname alg kh) =
      [fname.toList, alg.toList ++ ':' :: kh.toList] := by
  have hmid : ∀ c ∈ "sha256:".toList ++ fh.toList, isPySpace c = false := by
    intro c hc
    rcases List.mem_append.mp hc with h | h
    · fin_cases h <;> decide
    · exact hfh c h
  have hmid2 : ∀ c ∈ alg.toList ++ ':' :: kh.toList, isPySpace c = false := by
    intro c hc
    rcases List.mem_append.mp hc with h | h
    · exact halg.2 c h
    · rcases List.mem_cons.mp h with h | h
      · subst h; decide
      · exact hkh c h
  constructor
  · have hshape : sourceRegistryLine fn fh url =
        fn.toList ++ ' ' :: (("sha256:".toList ++ fh.toList) ++ ' ' :: (url.toList ++ ['\n'])) := by
      simp [sourceRegistryLine]
    rw [hshape]
    exact wsTokens_three _ _ _ hfn.1 (by simp) hurl.1 hfn.2 hmid hurl.2
  · have hshape : curatedRegistryLine fname alg kh =
        fname.toList ++ ' ' :: ((alg.toList ++ ':' :: kh.toList) ++ ['\n']) := by
      simp [curatedRegistryLine]
    rw [hshape]
    exact wsTokens_two _ _ hfname.1 (by simp) hfname.2 hmid2

/-- C5 witness: concrete registry lines for a dataset file. -/
theorem c5_registry_line_tokens_witness :
    wsTokens (sourceRegistryLine "alta/dreams.html" "0abc"
        "https://dreambank.net/random_sample.cgi?series=alta") =
      ["alta/dreams.html".toList, "sha256:0abc".toList,
       "https://dreambank.net/random_sample.cgi?series=alta".toList] ∧
    wsTokens (curatedRegistryLine "alta.tsv" "sha256" "0abc") =
      ["alta.tsv".toList, "sha256:0abc".toList] := by
  have h := c5_registry_line_tokens "alta/dreams.html" "0abc"
    "https://dreambank.net/random_sample.cgi?series=alta" "alta.tsv" "sha256" "0abc"
    (by constructor; · decide
        · intro c hc; fin_cases hc <;> decide)
    (by intro c hc; fin_cases hc <;> decide)
    (by constructor; · decide
        · intro c hc; fin_cases hc <;> decide)
    (by constructor; · decide
        · intro c hc; fin_cases hc <;> decide)
    (by constructor; · decide
        · intro c hc; fin_cases hc <;> decide)
    (by intro c hc; fin_cases hc <;> decide)
  exact ⟨by rw [h.1]; decide, by rw [h.2]; decide⟩

end Dreambank

namespace Dreambank

/-! ## Claim C6: overwrite protection of the curated writers -/

/-- A file system: file contents by path. -/
def FS : Type := String → Option String

/-- The `OSError` raised by the curated writers when the destination exists
and `overwrite` is false. -/
inductive WriteErr where
  | alreadyExists : WriteErr
deriving Repr, DecidableEq

/-- Write `content` at `path`. -/
def updateFS (fs : FS) (path content : String) : FS :=
  fun p => if p = path then some content else fs p

/-- `write_dreams_df_to_csv` (curation.py lines 303-338): destination is
`{dataset_id}.tsv`; if it exists and `overwrite` is false, raise `OSError`
before reading or writing anything (lines 322-324); otherwise parse and
write.  The parse/serialize step runs only after the check and is abstracted
as the `content` argument.  The result pairs the file system after the call
with the raised error, if any. -/
def write_dreams_df_to_csv (fs : FS) (datasetId : String) (overwrite : Bool)
    (content : String) : FS × Option WriteErr :=
  let path := datasetId ++ ".tsv"
  if (fs path).isSome && !overwrite then
    (fs, some WriteErr.alreadyExists)
  else
    (updateFS fs path content, none)

/-- `write_info_dict_to_json` (curation.py lines 340-364): destination is
`{dataset_id}.json`; same overwrite protection (lines 359-361). -/
def write_info_dict_to_json (fs : FS) (datasetId : String) (overwrite : Bool)
    (content : String) : FS × Option WriteErr :=
  let path := datasetId ++ ".json"
  if (fs path).isSome && !overwrite then
    (fs, some WriteErr.alreadyExists)
  else
    (updateFS fs path content, none)

/-- C6: for every dataset id and both writers, if the destination file
already exists and the overwrite flag is false, the writer fails with the
already-exists error and leaves the file system — in particular the existing
destination contents — unchanged. -/
theorem c6_no_overwrite (fs : FS) (dsid content : String) :
    (∀ c, fs (dsid ++ ".tsv") = some c →
      write_dreams_df_to_csv fs dsid false content = (fs, some WriteErr.alreadyExists)) ∧
    (∀ c, fs (dsid ++ ".json") = some c →
      write_info_dict_to_json fs dsid false content = (fs, some WriteErr.alreadyExists)) := by
  constructor
  · intro c hc
    simp [write_dreams_df_to_csv, hc]
  · intro c hc
    simp [write_info_dict_to_json, hc]

/-- C6 witness: a file system already holding `alta.tsv` and `alta.json`
rejects both writers and keeps the old contents. -/
theorem c6_no_overwrite_witness :
    (write_dreams_df_to_csv
        (fun p => if p = "alta.tsv" then some "old tsv"
                  else if p = "alta.json" then some "old json" else none)
        "alta" false "new" =
      ((fun p => if p = "alta.tsv" then some "old tsv"
                 else if p = "alta.json" then some "old json" else none),
       some WriteErr.alreadyExists)) ∧
    (write_info_dict_to_json
        (fun p => if p = "alta.tsv" then some "old tsv"
                  else if p = "alta.json" then some "old json" else none)
        "alta" false "new" =
      ((fun p => if p = "alta.tsv" then some "old tsv"
                 else if p = "alta.json" then some "old json" else none),
       some WriteErr.alreadyExists)) :=
  ⟨(c6_no_overwrite _ "alta" "new").1 "old tsv" (by rfl),
   (c6_no_overwrite _ "alta" "new").2 "old json" (by rfl)⟩

end Dreambank

namespace Dreambank

/-! ## Claims C8, C9: the content fetch protocol

`fetch` in `src/dreambank/fetchers.py` (lines 49-73) and `fetch_source_file`
in `curation.py` (lines 179-201) are one-line delegations to the external
`pooch` library's `Pooch.fetch`; the cache/verify/download behaviour itself
is not code of this repository. -/

/-- An entry lookup in the loaded registry (filename's digest, or absent). -/
def lookupReg : List (String × String) → String → Option String
  | [], _ => none
  | (k, v) :: rest, f => if k = f then some v else lookupReg rest f

/-- The fetch failures: filename absent from the registry, or a digest
mismatch surviving the retry, reported with expected and actual digest. -/
inductive FetchErr where
  | unknownFile : FetchErr
  | integrity : String → String → FetchErr
deriving Repr, DecidableEq

/-- The fetcher's local state: the cache contents by filename, and the
number of network downloads performed so far. -/
structure CacheState where
  cache : String → Option String
  downloads : Nat

/-- Modelled from the spec: the download-and-verify step of
`ContentFetcher.fetch` (spec section 4.3, steps 3-4), which in the
repository is performed inside the external `pooch` library and is not under
`src/`.  `H` is the digest function; `remote fname k` is the content
returned by the `k`-th network download.  Download to the cache path, verify;
on mismatch retry the download exactly once; if it still mismatches, fail
with the integrity error naming the expected and the actual digest. -/
def downloadVerify (H : String → String) (remote : String → Nat → String)
    (st : CacheState) (fname digest : String) : Except FetchErr (CacheState × String) :=
  let c1 := remote fname st.downloads
  let st1 : CacheState := ⟨updateFS st.cache fname c1, st.downloads + 1⟩
  if H c1 = digest then
    .ok (st1, fname)
  else
    let c2 := remote fname st1.downloads
    let st2 : CacheState := ⟨updateFS st1.cache fname c2, st1.downloads + 1⟩
    if H c2 = digest then
      .ok (st2, fname)
    else
      .error (FetchErr.integrity digest (H c2))

/-- Modelled from the spec: `ContentFetcher.fetch` (spec section 4.3), the
protocol behind `fetch` (fetchers.py lines 49-73) and `fetch_source_file`
(curation.py lines 179-201), whose implementation lives in the external
`pooch` library and is not under `src/`.  Resolve the filename's registry
entry (fail with `unknownFile` if absent); if a cached copy exists and its
digest verifies, return the cached path with no network access; otherwise
download with one retry.  The returned path is the cache path, identified
with the filename. -/
def fetch (H : String → String) (registry : List (String × String))
    (remote : String → Nat → String) (st : CacheState) (fname : String) :
    Except FetchErr (CacheState × String) :=
  match lookupReg registry fname with
  | none => .error FetchErr.unknownFile
  | some digest =>
    match st.cache fname with
    | some c =>
      if H c = digest then
        .ok (st, fname)
      else
        downloadVerify H remote st fname digest
    | none => downloadVerify H remote st fname digest

/-- C8: fetching the same registered filename twice performs exactly one
network download: from a cold cache the first call downloads once (the
remote content verifying against the registry digest), and the second call
returns the cached path with no network access and no state change. -/
theorem c8_idempotent_fetch (H : String → String) (registry : List (String × String))
    (remote : String → Nat → String) (st : CacheState) (fname d : String)
    (hreg : lookupReg registry fname = some d)
    (hcold : st.cache fname = none)
    (hremote : H (remote fname st.downloads) = d) :
    ∃ st', fetch H registry remote st fname = .ok (st', fname) ∧
      st'.downloads = st.downloads + 1 ∧
      fetch H registry remote st' fname = .ok (st', fname) := by
  refine ⟨⟨updateFS st.cache fname (remote fname st.downloads), st.downloads + 1⟩, ?_, rfl, ?_⟩
  · simp [fetch, hreg, hcold, downloadVerify, hremote]
  · simp [fetch, hreg, updateFS, hremote]

/-- C8 witness: with the identity digest function, a one-entry registry and
a well-behaved remote, two fetches from a cold cache perform one download. -/
theorem c8_idempotent_fetch_witness :
    ∃ st', fetch (fun c => c) [("alta.tsv", "good")] (fun _ _ => "good")
        ⟨fun _ => none, 0⟩ "alta.tsv" = .ok (st', "alta.tsv") ∧
      st'.downloads = 0 + 1 ∧
      fetch (fun c => c) [("alta.tsv", "good")] (fun _ _ => "good")
        st' "alta.tsv" = .ok (st', "alta.tsv") :=
  c8_idempotent_fetch (fun c => c) [("alta.tsv", "good")] (fun _ _ => "good")
    ⟨fun _ => none, 0⟩ "alta.tsv" "good" (by rfl) (by rfl) (by rfl)

/-- C9: when the cached copy is absent or fails verification, the fetch
downloads and, on a digest mismatch, retries the download exactly once: a
second download that verifies yields success after exactly two downloads; a
second mismatch is the integrity error naming the expected and the actual
digest; and any successful fetch leaves cached content whose digest matches
the registry entry — a path to unverified content is never returned. -/
theorem c9_retry_once (H : String → String) (registry : List (String × String))
    (remote : String → Nat → String) (st : CacheState) (fname d : String)
    (hreg : lookupReg registry fname = some d)
    (hmiss : ∀ c, st.cache fname = some c → H c ≠ d) :
    (H (remote fname st.downloads) ≠ d →
      (H (remote fname (st.downloads + 1)) = d →
        ∃ st', fetch H registry remote st fname = .ok (st', fname) ∧
          st'.downloads = st.downloads + 2) ∧
      (H (remote fname (st.downloads + 1)) ≠ d →
        fetch H registry remote st fname =
          .error (FetchErr.integrity d (H (remote fname (st.downloads + 1)))))) ∧
    (∀ st' p, fetch H registry remote st fname = .ok (st', p) →
      p = fname ∧ ∃ c, st'.cache fname = some c ∧ H c = d) := by
  constructor
  · intro h1
    constructor
    · intro h2
      refine ⟨⟨updateFS (updateFS st.cache fname (remote fname st.downloads)) fname
          (remote fname (st.downloads + 1)), st.downloads + 1 + 1⟩, ?_, rfl⟩
      cases hc : st.cache fname with
      | none => simp [fetch, hreg, hc, downloadVerify, h1, h2]
      | some c =>
        have := hmiss c hc
        simp [fetch, hreg, hc, this, downloadVerify, h1, h2]
    · intro h2
      cases hc : st.cache fname with
      | none => simp [fetch, hreg, hc, downloadVerify, h1, h2]
      | some c =>
        have := hmiss c hc
        simp [fetch, hreg, hc, this, downloadVerify, h1, h2]
  · intro st' p hok
    have hgo : ∀ (hdv : downloadVerify H remote st fname d = .ok (st', p)),
        p = fname ∧ ∃ c, st'.cache fname = some c ∧ H c = d := by
      intro hdv
      unfold downloadVerify at hdv
      by_cases h1 : H (remote fname st.downloads) = d
      · simp only [h1, if_true] at hdv
        cases hdv
        exact ⟨rfl, remote fname st.downloads, by simp [updateFS], h1⟩
      · simp only [h1, if_false] at hdv
        by_cases h2 : H (remote fname (st.downloads + 1)) = d
        · simp only [h2, if_true] at hdv
          cases hdv
          exact ⟨rfl, remote fname (st.downloads + 1), by simp [updateFS], h2⟩
        · simp [h2] at hdv
    unfold fetch at hok
    rw [hreg] at hok
    cases hc : st.cache fname with
    | none =>
      rw [hc] at hok
      exact hgo hok
    | some c =>
      have hne := hmiss c hc
      rw [hc] at hok
      simp only [hne, if_false] at hok
      exact hgo hok

/-- C9 witness: a remote that serves corrupted content on the first download
and intact content on the retry succeeds after exactly two downloads. -/
theorem c9_retry_once_witness :
    ∃ st', fetch (fun c => c) [("alta.tsv", "good")]
        (fun _ k => if k = 0 then "bad" else "good")
        ⟨fun _ => none, 0⟩ "alta.tsv" = .ok (st', "alta.tsv") ∧
      st'.downloads = 0 + 2 :=
  (((c9_retry_once (fun c => c) [("alta.tsv", "good")]
      (fun _ k => if k = 0 then "bad" else "good")
      ⟨fun _ => none, 0⟩ "alta.tsv" "good" (by rfl)
      (by intro c hc; cases hc)).1 (by decide)).1) (by decide)

end Dreambank

namespace Dreambank

/-! ## Claim C7: the TSV round trip

`write_dreams_df_to_csv` serializes through pandas `DataFrame.to_csv` with
`sep="\t"`, `na_rep="n/a"`, `quoting=2` (`csv.QUOTE_NONNUMERIC`),
`quotechar='"'`, `doublequote=True`, `lineterminator="\n"` (curation.py
lines 327-338); `read_dreams` reads back through `pandas.read_table`
(fetchers.py lines 75-96).  The serialization engine itself is the external
pandas library, not code of this repository; the format is modelled from the
spec (sections 4.5 and 6): header row `n`, `date`, `dream`; every field
quoted except those that parse as plain numbers, quote characters doubled;
a missing date rendered as the literal unquoted token `n/a`; `\n` line
endings. -/

/-- A field that parses as a plain number (the fields `csv.QUOTE_NONNUMERIC`
leaves unquoted): a nonempty digit string. -/
def isPlainNum (s : List Char) : Bool :=
  !s.isEmpty && s.all Char.isDigit

/-- Double every quote character (`doublequote=True`). -/
def escQ : List Char → List Char
  | [] => []
  | c :: tl => if c = '"' then '"' :: '"' :: escQ tl else c :: escQ tl

/-- Modelled from the spec: one serialized field of the `writeDreams` table
(spec section 4.5) — quoted with doubled inner quotes unless it parses as a
plain number. -/
def encField (s : List Char) : List Char :=
  if isPlainNum s then s else '"' :: (escQ s ++ ['"'])

/-- Modelled from the spec: the serialized date column — the literal
unquoted sentinel `n/a` when the date is absent (`na_rep="n/a"`). -/
def encDate : Option String → List Char
  | none => "n/a".toList
  | some s => encField s.toList

/-- One serialized table row: three fields separated by tabs, ended by a
newline. -/
def encodeRow (r : DreamRec) : List Char :=
  encField r.n.toList ++ '\t' :: (encDate r.date ++ '\t' :: (encField r.dream.toList ++ ['\n']))

/-- The header row `n`, `date`, `dream`; its cells are strings, so under
`QUOTE_NONNUMERIC` they are serialized exactly like a record whose fields
are those labels. -/
def headerRec : DreamRec := ⟨"n", some "date", "dream"⟩

/-- Modelled from the spec: the `writeDreams` serialization of a record
sequence (spec section 4.5) — header row then one row per record in order. -/
def writeDreams (rs : List DreamRec) : List Char :=
  encodeRow headerRec ++ (rs.map encodeRow).flatten

/-- A raw table cell as read back: a quoted cell's unescaped content, or an
unquoted cell's text. -/
inductive RawField where
  | quoted : List Char → RawField
  | plain : List Char → RawField
deriving Repr, DecidableEq

/-- Parse the remainder of a quoted cell (the opening quote already
consumed): a doubled quote is a literal quote, a lone quote closes the
cell.  Returns the cell content and the rest of the input; `none` on an
unterminated cell. -/
def parseQuoted : List Char → Option (List Char × List Char)
  | [] => none
  | c :: rest =>
    if c = '"' then
      match rest with
      | c2 :: rest2 =>
        if c2 = '"' then
          (parseQuoted rest2).map (fun p => ('"' :: p.1, p.2))
        else
          some ([], rest)
      | [] => some ([], [])
    else
      (parseQuoted rest).map (fun p => (c :: p.1, p.2))

/-- Parse one cell: a cell opening with a quote is read by `parseQuoted`;
otherwise the cell is the text up to the next tab or newline. -/
def parseField (s : List Char) : Option (RawField × List Char) :=
  match s with
  | c :: rest =>
    if c = '"' then
      (parseQuoted rest).map (fun p => (RawField.quoted p.1, p.2))
    else
      some (RawField.plain ((c :: rest).takeWhile (fun x => !(x = '\t' || x = '\n'))),
            (c :: rest).dropWhile (fun x => !(x = '\t' || x = '\n')))
  | [] => some (RawField.plain [], [])

/-- Consume one expected separator character. -/
def expectChar (d : Char) : List Char → Option (List Char)
  | c :: rest => if c = d then some rest else none
  | [] => none

/-- Parse one table row: three cells separated by tabs, ended by a
newline. -/
def parseRow (s : List Char) : Option (RawField × RawField × RawField × List Char) :=
  (parseField s).bind fun p1 =>
  (expectChar '\t' p1.2).bind fun s1 =>
  (parseField s1).bind fun p2 =>
  (expectChar '\t' p2.2).bind fun s2 =>
  (parseField s2).bind fun p3 =>
  (expectChar '\n' p3.2).map fun s3 =>
  (p1.1, p2.1, p3.1, s3)

theorem parseQuoted_length_aux : ∀ (n : Nat) (s : List Char), s.length ≤ n →
    ∀ cnt r, parseQuoted s = some (cnt, r) → r.length < s.length := by
  intro n
  induction n with
  | zero =>
    intro s hs cnt r h
    cases s with
    | nil => cases h
    | cons a rest => simp at hs
  | succ n ih =>
    intro s hs cnt r h
    cases s with
    | nil => cases h
    | cons a rest =>
      by_cases ha : a = '"'
      · subst ha
        cases rest with
        | nil =>
          have he : parseQuoted ['"'] = some ([], []) := rfl
          rw [he] at h
          cases h
          simp
        | cons c2 rest2 =>
          by_cases hc2 : c2 = '"'
          · subst hc2
            have he : parseQuoted ('"' :: '"' :: rest2) =
                (parseQuoted rest2).map (fun p => ('"' :: p.1, p.2)) := rfl
            rw [he, Option.map_eq_some'] at h
            obtain ⟨p, hp, hpe⟩ := h
            have hlt := ih rest2 (by simp only [List.length_cons] at hs ⊢; omega)
              p.1 p.2 (by rw [hp])
            cases hpe
            simp only [List.length_cons]
            omega
          · have he : parseQuoted ('"' :: c2 :: rest2) = some ([], c2 :: rest2) := by
              unfold parseQuoted
              rw [if_pos rfl]
              simp [hc2]
            rw [he] at h
            cases h
            simp
      · have he : parseQuoted (a :: rest) =
            (parseQuoted rest).map (fun p => (a :: p.1, p.2)) := by
          conv_lhs => unfold parseQuoted
          rw [if_neg ha]
        rw [he, Option.map_eq_some'] at h
        obtain ⟨p, hp, hpe⟩ := h
        have hlt := ih rest (by simp only [List.length_cons] at hs; omega)
          p.1 p.2 (by rw [hp])
        cases hpe
        simp only [List.length_cons]
        omega

theorem parseQuoted_length_lt {s cnt r : List Char}
    (h : parseQuoted s = some (cnt, r)) : r.length < s.length :=
  parseQuoted_length_aux s.length s (Nat.le_refl _) cnt r h

theorem dropWhile_length_le (p : Char → Bool) (l : List Char) :
    (l.dropWhile p).length ≤ l.length := by
  induction l with
  | nil => simp
  | cons c cs ih =>
    by_cases h : p c
    · rw [List.dropWhile_cons, if_pos h]
      exact Nat.le_trans ih (Nat.le_succ _)
    · rw [List.dropWhile_cons, if_neg h]

theorem parseField_length_le {s r : List Char} {f : RawField}
    (h : parseField s = some (f, r)) : r.length ≤ s.length := by
  cases s with
  | nil =>
    cases h
    simp
  | cons c rest =>
    by_cases hc : c = '"'
    · rw [show parseField (c :: rest) =
          (parseQuoted rest).map (fun p => (RawField.quoted p.1, p.2)) by
        simp [parseField, hc]] at h
      rw [Option.map_eq_some'] at h
      obtain ⟨p, hp, hpe⟩ := h
      have hq : parseQuoted rest = some (p.1, p.2) := by rw [hp]
      have := parseQuoted_length_lt hq
      cases hpe
      simp only [List.length_cons]
      omega
    · rw [show parseField (c :: rest) =
          some (RawField.plain ((c :: rest).takeWhile (fun x => !(x = '\t' || x = '\n'))),
            (c :: rest).dropWhile (fun x => !(x = '\t' || x = '\n'))) by
        simp [parseField, hc]] at h
      cases h
      exact dropWhile_length_le _ _

theorem expectChar_length {d : Char} {s r : List Char}
    (h : expectChar d s = some r) : r.length < s.length := by
  cases s with
  | nil => cases h
  | cons c rest =>
    by_cases hc : c = d
    · rw [show expectChar d (c :: rest) = some rest by simp [expectChar, hc]] at h
      cases h
      simp
    · rw [show expectChar d (c :: rest) = none by simp [expectChar, hc]] at h
      cases h

theorem parseRow_length_lt {s rest : List Char} {a b c : RawField}
    (h : parseRow s = some (a, b, c, rest)) : rest.length < s.length := by
  simp only [parseRow, Option.bind_eq_some, Option.map_eq_some'] at h
  obtain ⟨p1, hp1, s1, hs1, p2, hp2, s2, hs2, p3, hp3, s3, hs3, heq⟩ := h
  have l1 := parseField_length_le hp1
  have e1 := expectChar_length hs1
  have l2 := parseField_length_le hp2
  have e2 := expectChar_length hs2
  have l3 := parseField_length_le hp3
  have e3 := expectChar_length hs3
  injection heq with h1 hrest1
  injection hrest1 with h2 hrest2
  injection hrest2 with h3 h4
  subst h4
  omega

end Dreambank

namespace Dreambank

/-- Parse the whole table: rows until the input is exhausted. -/
def parseRows (s : List Char) : Option (List (RawField × RawField × RawField)) :=
  if s = [] then some []
  else
    match _h : parseRow s with
    | some (a, b, c, rest) => (parseRows rest).map (fun l => (a, b, c) :: l)
    | none => none
termination_by s.length
decreasing_by exact parseRow_length_lt _h

theorem parseRows_nil : parseRows [] = some [] := by
  unfold parseRows
  rfl

theorem parseRows_cons_of {s : List Char} (hs : s ≠ []) {a b c : RawField}
    {rest : List Char} (h : parseRow s = some (a, b, c, rest)) :
    parseRows s = (parseRows rest).map (fun l => (a, b, c) :: l) := by
  rw [parseRows.eq_def, if_neg hs]
  split
  · next a' b' c' rest' heq =>
    rw [h] at heq
    injection heq with heq
    simp only [Prod.mk.injEq] at heq
    obtain ⟨rfl, rfl, rfl, rfl⟩ := heq
    rfl
  · next heq =>
    rw [h] at heq
    cases heq

/-- The columns as decoded by the reader: a quoted cell is its content, an
unquoted cell its text. -/
def decodeStr : RawField → String
  | RawField.quoted cnt => String.mk cnt
  | RawField.plain cnt => String.mk cnt

/-- Modelled from the spec: the date column decoding of the read-back table
(spec section 8, date `n/a` ↔ absent): the unquoted sentinel token `n/a`
denotes an absent date; any other cell is the date string. -/
def decodeDate : RawField → Option String
  | RawField.quoted cnt => some (String.mk cnt)
  | RawField.plain cnt => if String.mk cnt = "n/a" then none else some (String.mk cnt)

/-- One read-back record from a parsed row. -/
def toRec (row : RawField × RawField × RawField) : DreamRec :=
  ⟨decodeStr row.1, decodeDate row.2.1, decodeStr row.2.2⟩

/-- Modelled from the spec: `read_dreams` (fetchers.py lines 75-96) re-reads
the curated table through `pandas.read_table`, which is not code of this
repository; modelled as parsing the TSV (header row dropped) and decoding
each row into a record. -/
def read_dreams (s : List Char) : Option (List DreamRec) :=
  match parseRows s with
  | some (_ :: rows) => some (rows.map toRec)
  | _ => none

theorem parseQuoted_escQ (a : List Char) : ∀ (rest : List Char), rest.head? ≠ some '"' →
    parseQuoted (escQ a ++ '"' :: rest) = some (a, rest) := by
  induction a with
  | nil =>
    intro rest h
    show parseQuoted ('"' :: rest) = some ([], rest)
    cases rest with
    | nil => rfl
    | cons c2 rs =>
      have hc2 : c2 ≠ '"' := fun hh => h (by rw [hh]; rfl)
      unfold parseQuoted
      rw [if_pos rfl]
      simp [hc2]
  | cons c tl ih =>
    intro rest h
    by_cases hc : c = '"'
    · subst hc
      rw [show escQ ('"' :: tl) = '"' :: '"' :: escQ tl by simp [escQ]]
      rw [show ('"' :: '"' :: escQ tl) ++ '"' :: rest =
            '"' :: '"' :: (escQ tl ++ '"' :: rest) by simp]
      have he : parseQuoted ('"' :: '"' :: (escQ tl ++ '"' :: rest)) =
          (parseQuoted (escQ tl ++ '"' :: rest)).map (fun p => ('"' :: p.1, p.2)) := rfl
      rw [he, ih rest h]
      rfl
    · rw [show escQ (c :: tl) ++ '"' :: rest = c :: (escQ tl ++ '"' :: rest) by
        simp [escQ, hc]]
      have he : parseQuoted (c :: (escQ tl ++ '"' :: rest)) =
          (parseQuoted (escQ tl ++ '"' :: rest)).map (fun p => (c :: p.1, p.2)) := by
        conv_lhs => unfold parseQuoted
        rw [if_neg hc]
      rw [he, ih rest h]
      rfl

theorem takeWhile_dropWhile_append (p : Char → Bool) (a : List Char) (d : Char)
    (t : List Char) (ha : ∀ c ∈ a, p c = true) (hd : p d = false) :
    (a ++ d :: t).takeWhile p = a ∧ (a ++ d :: t).dropWhile p = d :: t := by
  induction a with
  | nil => simp [List.takeWhile_cons, List.dropWhile_cons, hd]
  | cons x xs ih =>
    have hx : p x = true := ha x (by simp)
    obtain ⟨h1, h2⟩ := ih (fun c hc => ha c (by simp [hc]))
    constructor
    · simp [List.takeWhile_cons, hx, h1]
    · simp [List.dropWhile_cons, hx, h2]

theorem parseField_cons (c : Char) (rest : List Char) :
    parseField (c :: rest) =
      if c = '"' then (parseQuoted rest).map (fun p => (RawField.quoted p.1, p.2))
      else some (RawField.plain ((c :: rest).takeWhile (fun x => !(x = '\t' || x = '\n'))),
                 (c :: rest).dropWhile (fun x => !(x = '\t' || x = '\n'))) := rfl

theorem parseField_plain (s : List Char) (d : Char) (t : List Char)
    (hne : s ≠ []) (hq : s.head? ≠ some '"')
    (hs : ∀ c ∈ s, (!(c = '\t' || c = '\n')) = true)
    (hd : (!(d = '\t' || d = '\n')) = false) :
    parseField (s ++ d :: t) = some (RawField.plain s, d :: t) := by
  obtain ⟨h1, h2⟩ :=
    takeWhile_dropWhile_append (fun x => !(x = '\t' || x = '\n')) s d t hs hd
  cases s with
  | nil => exact absurd rfl hne
  | cons c cs =>
    have hc : c ≠ '"' := fun hh => hq (by rw [hh]; rfl)
    rw [List.cons_append, parseField_cons, if_neg hc, ← List.cons_append, h1, h2]

theorem parseField_quoted (s rest : List Char) (hq : rest.head? ≠ some '"') :
    parseField ('"' :: (escQ s ++ '"' :: rest)) = some (RawField.quoted s, rest) := by
  have h := parseQuoted_escQ s rest hq
  rw [show parseField ('"' :: (escQ s ++ '"' :: rest)) =
        (parseQuoted (escQ s ++ '"' :: rest)).map
          (fun p => (RawField.quoted p.1, p.2)) from rfl,
      h]
  rfl

/-- The raw cell the reader recovers for an encoded field. -/
def rawOf (s : List Char) : RawField :=
  if isPlainNum s then RawField.plain s else RawField.quoted s

theorem isPlainNum_facts {s : List Char} (h : isPlainNum s = true) :
    s ≠ [] ∧ ∀ c ∈ s, c.isDigit = true := by
  unfold isPlainNum at h
  rw [Bool.and_eq_true] at h
  constructor
  · intro hs
    subst hs
    simp at h
  · intro c hc
    exact List.all_eq_true.mp h.2 c hc

theorem parseField_encField (s : List Char) (d : Char) (t : List Char)
    (hd : d = '\t' ∨ d = '\n') :
    parseField (encField s ++ d :: t) = some (rawOf s, d :: t) := by
  have hdt : (!(d = '\t' || d = '\n')) = false := by
    rcases hd with rfl | rfl <;> simp
  by_cases hp : isPlainNum s
  · obtain ⟨hne, hdig⟩ := isPlainNum_facts hp
    have hq : s.head? ≠ some '"' := by
      cases s with
      | nil => exact absurd rfl hne
      | cons c cs =>
        intro hh
        injection hh with hh
        have hdc := hdig c (by simp)
        rw [hh] at hdc
        exact absurd hdc (by decide)
    have hsafe : ∀ c ∈ s, (!(c = '\t' || c = '\n')) = true := by
      intro c hc
      have hdc := hdig c hc
      have h1 : c ≠ '\t' := fun hh => by rw [hh] at hdc; exact absurd hdc (by decide)
      have h2 : c ≠ '\n' := fun hh => by rw [hh] at hdc; exact absurd hdc (by decide)
      simp [h1, h2]
    rw [show encField s = s from by simp [encField, hp]]
    rw [parseField_plain s d t hne hq hsafe hdt]
    simp [rawOf, hp]
  · have hdq : (d :: t).head? ≠ some '"' := by
      rcases hd with rfl | rfl <;> simp
    rw [show encField s = '"' :: (escQ s ++ ['"']) from by simp [encField, hp]]
    rw [show ('"' :: (escQ s ++ ['"'])) ++ d :: t =
          '"' :: (escQ s ++ '"' :: (d :: t)) by simp]
    rw [parseField_quoted s (d :: t) hdq]
    simp [rawOf, hp]

/-- The raw date cell the reader recovers for an encoded date. -/
def rawOfDate : Option String → RawField
  | none => RawField.plain "n/a".toList
  | some s => rawOf s.toList

theorem parseField_encDate (d? : Option String) (d : Char) (t : List Char)
    (hd : d = '\t' ∨ d = '\n') :
    parseField (encDate d? ++ d :: t) = some (rawOfDate d?, d :: t) := by
  cases d? with
  | some s => exact parseField_encField s.toList d t hd
  | none =>
    have hdt : (!(d = '\t' || d = '\n')) = false := by
      rcases hd with rfl | rfl <;> simp
    rw [show encDate none = "n/a".toList from rfl]
    rw [parseField_plain "n/a".toList d t (by decide) (by decide) (by decide) hdt]
    rfl

theorem parseRow_enc (r : DreamRec) (t : List Char) :
    parseRow (encodeRow r ++ t) =
      some (rawOf r.n.toList, rawOfDate r.date, rawOf r.dream.toList, t) := by
  have hshape : encodeRow r ++ t =
      encField r.n.toList ++ '\t' ::
        (encDate r.date ++ '\t' :: (encField r.dream.toList ++ '\n' :: t)) := by
    simp [encodeRow]
  have h1 := parseField_encField r.n.toList '\t'
    (encDate r.date ++ '\t' :: (encField r.dream.toList ++ '\n' :: t)) (Or.inl rfl)
  have h2 := parseField_encDate r.date '\t'
    (encField r.dream.toList ++ '\n' :: t) (Or.inl rfl)
  have h3 := parseField_encField r.dream.toList '\n' t (Or.inr rfl)
  rw [hshape]
  unfold parseRow
  rw [h1]
  simp only [Option.some_bind]
  rw [show expectChar '\t'
        ('\t' :: (encDate r.date ++ '\t' :: (encField r.dream.toList ++ '\n' :: t))) =
      some (encDate r.date ++ '\t' :: (encField r.dream.toList ++ '\n' :: t)) from rfl]
  simp only [Option.some_bind]
  rw [h2]
  simp only [Option.some_bind]
  rw [show expectChar '\t' ('\t' :: (encField r.dream.toList ++ '\n' :: t)) =
      some (encField r.dream.toList ++ '\n' :: t) from rfl]
  simp only [Option.some_bind]
  rw [h3]
  simp only [Option.some_bind]
  rw [show expectChar '\n' ('\n' :: t) = some t from rfl]
  rfl

theorem parseRows_rows (rs : List DreamRec) :
    parseRows ((rs.map encodeRow).flatten) =
      some (rs.map (fun r => (rawOf r.n.toList, rawOfDate r.date, rawOf r.dream.toList))) := by
  induction rs with
  | nil => simp [parseRows_nil]
  | cons r rest ih =>
    rw [List.map_cons, List.flatten_cons]
    have hne : encodeRow r ++ (rest.map encodeRow).flatten ≠ [] := by
      simp [encodeRow]
    rw [parseRows_cons_of hne (parseRow_enc r _), ih]
    rfl

theorem string_mk_toList (s : String) : String.mk s.toList = s := rfl

theorem decodeStr_rawOf (l : List Char) : decodeStr (rawOf l) = String.mk l := by
  unfold rawOf
  by_cases h : isPlainNum l <;> simp [h, decodeStr]

theorem decodeDate_rawOf (l : List Char) : decodeDate (rawOf l) = some (String.mk l) := by
  unfold rawOf
  by_cases h : isPlainNum l
  · rw [if_pos h]
    show (if String.mk l = "n/a" then none else some (String.mk l)) = some (String.mk l)
    have hne : String.mk l ≠ "n/a" := by
      intro hh
      have hl : l = "n/a".toList := congrArg String.toList hh
      rw [hl] at h
      exact absurd h (by decide)
    rw [if_neg hne]
  · rw [if_neg h]
    rfl

theorem decodeDate_rawOfDate (d? : Option String) : decodeDate (rawOfDate d?) = d? := by
  cases d? with
  | none =>
    show decodeDate (RawField.plain "n/a".toList) = none
    simp [decodeDate]
  | some s =>
    show decodeDate (rawOf s.toList) = some s
    rw [decodeDate_rawOf, string_mk_toList]

theorem toRec_row (r : DreamRec) :
    toRec (rawOf r.n.toList, rawOfDate r.date, rawOf r.dream.toList) = r := by
  obtain ⟨n, date, dream⟩ := r
  simp [toRec, decodeStr_rawOf, decodeDate_rawOfDate, string_mk_toList]

/-- C7: for every dream-record sequence with unique `n` values, serializing
with `writeDreams` and re-reading the table yields back exactly the same
`(n, date, dream)` tuples, an absent date corresponding to the `n/a`
sentinel in the file. -/
theorem c7_roundtrip (rs : List DreamRec) (_hn : (rs.map DreamRec.n).Nodup) :
    read_dreams (writeDreams rs) = some rs := by
  unfold read_dreams writeDreams
  rw [show encodeRow headerRec ++ (rs.map encodeRow).flatten =
        ((headerRec :: rs).map encodeRow).flatten by
      rw [List.map_cons, List.flatten_cons]]
  rw [parseRows_rows (headerRec :: rs), List.map_cons]
  show some ((rs.map
      (fun r => (rawOf r.n.toList, rawOfDate r.date, rawOf r.dream.toList))).map toRec) =
    some rs
  rw [List.map_map]
  have hfe : (toRec ∘ fun r : DreamRec =>
      (rawOf r.n.toList, rawOfDate r.date, rawOf r.dream.toList)) = id := by
    funext r
    exact toRec_row r
  rw [hfe, List.map_id]

/-- C7 witness: a concrete two-record table — quotes and a newline in the
dream text, a numeric and a letter-suffixed index, a present and an absent
date — round-trips exactly. -/
theorem c7_roundtrip_witness :
    read_dreams (writeDreams
      [⟨"1", some "(1986-01-01)", "I was flying."⟩,
       ⟨"111a", none, "A dream with \"quotes\" and\na newline."⟩]) =
      some [⟨"1", some "(1986-01-01)", "I was flying."⟩,
       ⟨"111a", none, "A dream with \"quotes\" and\na newline."⟩] :=
  c7_roundtrip _ (by decide)

end Dreambank
